import Mathlib

/-!
Shallow embedding of the alarm/timer subsystem of the `alarm_assistant`
custom component (files `alarm_manager.py`, `alarm_storage.py`,
`timer_storage.py`, `timer_tools.py`, `alarm_control_tools.py`,
`timer_manager.py`).

Modeling conventions:
* Instants are local wall-clock seconds since a fixed epoch, as `Nat` for the
  alarm side (which only compares and adds instants) and `Int` for the timer
  side (whose remaining-time computation subtracts).  Days are uniform
  (86400 s); DST is out of scope per the spec.
* Day 0 of the model epoch is a Monday, so Python's `datetime.weekday()` of
  the day containing `t` is `t / 86400 % 7`.
* Python dicts keyed by id are association lists with insert-replaces-key
  semantics (`dictInsert`), `dict.pop` is lookup plus key erasure.
* A Scheduled Action handle is an opaque `Nat` token drawn from a counter.
  Arming a callback records `(handle, target)` in an armed-log; calling the
  handle's cancel function records the handle in a `cancelled` log.  A
  pending fire is an armed handle that is neither cancelled nor fired.
-/

/-- Seconds per local calendar day. -/
def secondsPerDay : Nat := 86400

/-- `dt_util.start_of_local_day()`: midnight of the day containing `now`. -/
def startOfDay (now : Nat) : Nat := now / secondsPerDay * secondsPerDay

/-- Python `datetime.weekday()` of the day containing `t` (0 = Monday). -/
def weekdayOf (t : Nat) : Nat := t / secondsPerDay % 7

/-- Offset in seconds within a day of the instant
`day_start.replace(hour=hour, minute=minute, second=0, microsecond=0)`. -/
def timeOffset (hour minute : Nat) : Nat := hour * 3600 + minute * 60

/-- Python `s.lower()` (ASCII case folding suffices for the weekday tags). -/
def strLower (s : String) : String := ⟨s.data.map Char.toLower⟩

/-- The `day_map` dict in `AlarmManager._calculate_next_trigger`. -/
def dayMap (d : String) : Option Nat :=
  if d = "mon" then some 0
  else if d = "tue" then some 1
  else if d = "wed" then some 2
  else if d = "thu" then some 3
  else if d = "fri" then some 4
  else if d = "sat" then some 5
  else if d = "sun" then some 6
  else none

/-- `[day_map[day.lower()] for day in repeat_days if day.lower() in day_map]`. -/
def targetDays (repeatDays : List String) : List Nat :=
  repeatDays.filterMap (fun d => dayMap (strLower d))

/-- The `for days_ahead in range(8)` loop of `_calculate_next_trigger`:
first `check_time` (built on `today_start + days_ahead` days at `hour:minute`)
whose weekday is in `target_days` and which is strictly after `now`. -/
def recurringScan (hour minute now : Nat) (tds : List Nat) : Option Nat :=
  (List.range 8).findSome? (fun daysAhead =>
    let checkTime := startOfDay now + daysAhead * secondsPerDay + timeOffset hour minute
    if weekdayOf checkTime ∈ tds ∧ now < checkTime then some checkTime else none)

/-- `AlarmManager._calculate_next_trigger(hour, minute, repeat_days)` at instant
`now`.  `repeat_days = None` and `repeat_days = []` are both falsy in the
source; both are modeled as `[]`. -/
def calculateNextTrigger (hour minute : Nat) (repeatDays : List String) (now : Nat) :
    Option Nat :=
  let todayStart := startOfDay now
  let alarmTime := todayStart + timeOffset hour minute
  if repeatDays.isEmpty then
    -- one-time alarm: today at hour:minute if still ahead, else tomorrow
    if now < alarmTime then some alarmTime
    else some (todayStart + secondsPerDay + timeOffset hour minute)
  else
    let tds := targetDays repeatDays
    if tds.isEmpty then none
    else recurringScan hour minute now tds

/-- `List.findSome?` distributes over append, trying the left list first. -/
theorem findSome_append_eq {α β : Type} (l₁ l₂ : List α) (f : α → Option β) :
    (l₁ ++ l₂).findSome? f =
      match l₁.findSome? f with
      | some b => some b
      | none => l₂.findSome? f := by
  induction l₁ with
  | nil => rfl
  | cons a t ih =>
    simp only [List.cons_append, List.findSome?_cons]
    cases f a <;> simp [ih]

/-- If scanning `0, …, n-1` finds nothing, every index misses. -/
theorem findSome_range_none (f : Nat → Option Nat) :
    ∀ n, (List.range n).findSome? f = none → ∀ j, j < n → f j = none := by
  intro n
  induction n with
  | zero => intro _ j hj; omega
  | succ n ih =>
    intro h j hj
    rw [List.range_succ, findSome_append_eq] at h
    cases hfn : (List.range n).findSome? f with
    | some b => rw [hfn] at h; exact absurd h (by simp)
    | none =>
      rw [hfn] at h
      rcases Nat.lt_succ_iff_lt_or_eq.mp hj with h1 | h1
      · exact ih hfn j h1
      · subst h1
        simp only [List.findSome?_cons, List.findSome?_nil] at h
        cases hn : f j with
        | some b => rw [hn] at h; exact absurd h (by simp)
        | none => rfl

/-- A successful scan of `0, …, n-1` returns the hit with the least index. -/
theorem findSome_range_some (f : Nat → Option Nat) :
    ∀ n t, (List.range n).findSome? f = some t →
      ∃ k, k < n ∧ f k = some t ∧ ∀ j, j < k → f j = none := by
  intro n
  induction n with
  | zero => intro t h; simp [List.range_zero] at h
  | succ n ih =>
    intro t h
    rw [List.range_succ, findSome_append_eq] at h
    cases hfn : (List.range n).findSome? f with
    | some b =>
      rw [hfn] at h
      obtain ⟨k, hk, hfk, hlt⟩ := ih b hfn
      cases h
      exact ⟨k, Nat.lt_succ_of_lt hk, hfk, hlt⟩
    | none =>
      rw [hfn] at h
      simp only [List.findSome?_cons, List.findSome?_nil] at h
      cases hn : f n with
      | none => rw [hn] at h; exact absurd h (by simp)
      | some b =>
        rw [hn] at h
        cases h
        exact ⟨n, Nat.lt_succ_self n, hn,
          fun j hj => findSome_range_none f n hfn j hj⟩

/-- If some index below `n` hits, the scan of `0, …, n-1` succeeds. -/
theorem findSome_range_isSome (f : Nat → Option Nat) (n k : Nat) (hk : k < n)
    (hfk : (f k).isSome) : ∃ t, (List.range n).findSome? f = some t := by
  cases h : (List.range n).findSome? f with
  | some t => exact ⟨t, rfl⟩
  | none =>
    rw [findSome_range_none f n h k hk] at hfk
    exact absurd hfk (by simp)

/-- Claim C3: for valid `hour` (0-23) and `minute` (0-59) and any `now`, the
one-shot next-trigger computation (`repeat_days` empty) returns an instant
strictly greater than `now` at `hour:minute` local time, it is the earliest
such instant, and it equals today's `hour:minute` when that is strictly after
`now`, otherwise tomorrow's `hour:minute`. -/
theorem oneShot_nextTrigger_correct (hour minute now : Nat)
    (hh : hour ≤ 23) (hm : minute ≤ 59) :
    ∃ t, calculateNextTrigger hour minute [] now = some t ∧
      now < t ∧
      t % secondsPerDay = timeOffset hour minute ∧
      (∀ u, now < u → u % secondsPerDay = timeOffset hour minute → t ≤ u) ∧
      (now < startOfDay now + timeOffset hour minute →
        t = startOfDay now + timeOffset hour minute) ∧
      (¬ now < startOfDay now + timeOffset hour minute →
        t = startOfDay now + secondsPerDay + timeOffset hour minute) := by
  by_cases hc : now < startOfDay now + timeOffset hour minute
  · refine ⟨startOfDay now + timeOffset hour minute, ?_, hc, ?_, ?_, fun _ => rfl,
      fun h => absurd hc h⟩
    · simp only [calculateNextTrigger, List.isEmpty_nil, if_true, if_pos hc]
    · unfold startOfDay timeOffset secondsPerDay at *
      omega
    · intro u hu hmod
      unfold startOfDay timeOffset secondsPerDay at *
      omega
  · refine ⟨startOfDay now + secondsPerDay + timeOffset hour minute, ?_, ?_, ?_, ?_,
      fun h => absurd h hc, fun _ => rfl⟩
    · simp only [calculateNextTrigger, List.isEmpty_nil, if_true, if_neg hc]
    · unfold startOfDay timeOffset secondsPerDay at *
      omega
    · unfold startOfDay timeOffset secondsPerDay at *
      omega
    · intro u hu hmod
      unfold startOfDay timeOffset secondsPerDay at *
      omega

/-- Witness for C3 at a concrete input: alarm at 07:00, `now` 08:00 of day 3
(Thursday); the next trigger is 07:00 of day 4. -/
theorem oneShot_nextTrigger_correct_witness :
    ∃ t, calculateNextTrigger 7 0 [] (3 * 86400 + 8 * 3600) = some t ∧
      3 * 86400 + 8 * 3600 < t ∧
      t % secondsPerDay = timeOffset 7 0 ∧
      (∀ u, 3 * 86400 + 8 * 3600 < u → u % secondsPerDay = timeOffset 7 0 → t ≤ u) ∧
      (3 * 86400 + 8 * 3600 < startOfDay (3 * 86400 + 8 * 3600) + timeOffset 7 0 →
        t = startOfDay (3 * 86400 + 8 * 3600) + timeOffset 7 0) ∧
      (¬ 3 * 86400 + 8 * 3600 < startOfDay (3 * 86400 + 8 * 3600) + timeOffset 7 0 →
        t = startOfDay (3 * 86400 + 8 * 3600) + secondsPerDay + timeOffset 7 0) :=
  oneShot_nextTrigger_correct 7 0 (3 * 86400 + 8 * 3600) (by decide) (by decide)

/-- Values produced by `day_map` are weekday indices 0-6. -/
theorem dayMap_le_six {d : String} {w : Nat} (h : dayMap d = some w) : w ≤ 6 := by
  unfold dayMap at h
  split_ifs at h <;>
    first
      | exact Option.noConfusion h
      | (injection h with h2; omega)

/-- Every member of the normalized `target_days` list is a weekday index 0-6. -/
theorem targetDays_le_six {repeatDays : List String} {w : Nat}
    (h : w ∈ targetDays repeatDays) : w ≤ 6 := by
  unfold targetDays at h
  rw [List.mem_filterMap] at h
  obtain ⟨d, _, hd⟩ := h
  exact dayMap_le_six hd

/-- A non-empty repeat list whose tags all normalize yields a non-empty
`target_days` list. -/
theorem targetDays_ne_nil {repeatDays : List String} (hne : repeatDays ≠ [])
    (hvalid : ∀ d ∈ repeatDays, (dayMap (strLower d)).isSome) :
    targetDays repeatDays ≠ [] := by
  cases repeatDays with
  | nil => exact absurd rfl hne
  | cons d rest =>
    have h := hvalid d (List.mem_cons_self d rest)
    cases hw : dayMap (strLower d) with
    | none => rw [hw] at h; exact absurd h (by simp)
    | some w =>
      unfold targetDays
      simp [List.filterMap_cons, hw]

/-- Python's `datetime.weekday()` of the `days_ahead = k` candidate built by
the recurring scan. -/
theorem weekdayOf_scan (now k hour minute : Nat) (hh : hour ≤ 23) (hm : minute ≤ 59) :
    weekdayOf (startOfDay now + k * secondsPerDay + timeOffset hour minute) =
      (now / secondsPerDay + k) % 7 := by
  unfold weekdayOf startOfDay timeOffset secondsPerDay
  omega

/-- The 8-day scan of `_calculate_next_trigger` is correct and complete for a
non-empty list of weekday indices: it returns the earliest instant at
`hour:minute` strictly after `now` whose weekday is in the list, and that
instant lies within the scanned 8 days. -/
theorem recurringScan_correct (hour minute now : Nat) (tds : List Nat)
    (hh : hour ≤ 23) (hm : minute ≤ 59)
    (hmem : ∀ w ∈ tds, w ≤ 6) (hne : tds ≠ []) :
    ∃ t, recurringScan hour minute now tds = some t ∧
      now < t ∧
      t % secondsPerDay = timeOffset hour minute ∧
      weekdayOf t ∈ tds ∧
      t ≤ startOfDay now + 7 * secondsPerDay + timeOffset hour minute ∧
      ∀ u, now < u → u % secondsPerDay = timeOffset hour minute →
        weekdayOf u ∈ tds → t ≤ u := by
  obtain ⟨w, hw⟩ := List.exists_mem_of_ne_nil tds hne
  have hw6 : w ≤ 6 := hmem w hw
  have hspd : secondsPerDay = 86400 := rfl
  have hsod : startOfDay now = now / 86400 * 86400 := rfl
  have hto : timeOffset hour minute = hour * 3600 + minute * 60 := rfl
  set f : Nat → Option Nat := fun daysAhead =>
    let checkTime := startOfDay now + daysAhead * secondsPerDay + timeOffset hour minute
    if weekdayOf checkTime ∈ tds ∧ now < checkTime then some checkTime else none
    with hfdef
  have hscan : recurringScan hour minute now tds = (List.range 8).findSome? f := rfl
  have hfpos : ∀ k,
      weekdayOf (startOfDay now + k * secondsPerDay + timeOffset hour minute) ∈ tds →
      now < startOfDay now + k * secondsPerDay + timeOffset hour minute →
      f k = some (startOfDay now + k * secondsPerDay + timeOffset hour minute) := by
    intro k h1 h2
    simp only [hfdef]
    exact if_pos ⟨h1, h2⟩
  have hfinv : ∀ k t, f k = some t →
      weekdayOf (startOfDay now + k * secondsPerDay + timeOffset hour minute) ∈ tds ∧
      now < startOfDay now + k * secondsPerDay + timeOffset hour minute ∧
      t = startOfDay now + k * secondsPerDay + timeOffset hour minute := by
    intro k t h
    simp only [hfdef] at h
    by_cases hc :
        weekdayOf (startOfDay now + k * secondsPerDay + timeOffset hour minute) ∈ tds ∧
        now < startOfDay now + k * secondsPerDay + timeOffset hour minute
    · rw [if_pos hc] at h
      injection h with h
      exact ⟨hc.1, hc.2, h.symm⟩
    · rw [if_neg hc] at h
      exact Option.noConfusion h
  -- existence: some index below 8 hits
  have hexists : ∃ k, k < 8 ∧ (f k).isSome := by
    by_cases hc : now <
        startOfDay now + (w + 7 - now / 86400 % 7) % 7 * secondsPerDay +
          timeOffset hour minute
    · refine ⟨(w + 7 - now / 86400 % 7) % 7, by omega, ?_⟩
      rw [hfpos _ ?_ hc]
      · rfl
      · rw [weekdayOf_scan now _ hour minute hh hm]
        have heq : (now / secondsPerDay + (w + 7 - now / 86400 % 7) % 7) % 7 = w := by
          rw [hspd]
          omega
        rw [heq]
        exact hw
    · -- today at hour:minute already passed; the same weekday one week out works
      refine ⟨7, by omega, ?_⟩
      have h7 : now < startOfDay now + 7 * secondsPerDay + timeOffset hour minute := by
        rw [hspd, hsod, hto]
        omega
      rw [hfpos 7 ?_ h7]
      · rfl
      · rw [weekdayOf_scan now 7 hour minute hh hm]
        have hk0 : (w + 7 - now / 86400 % 7) % 7 = 0 := by
          rw [hspd, hsod, hto] at hc
          omega
        have heq : (now / secondsPerDay + 7) % 7 = w := by
          rw [hspd]
          omega
        rw [heq]
        exact hw
  obtain ⟨k0, hk08, hk0s⟩ := hexists
  obtain ⟨t, ht⟩ := findSome_range_isSome f 8 k0 hk08 hk0s
  obtain ⟨k, hk8, hfk, hleast⟩ := findSome_range_some f 8 t ht
  obtain ⟨hwk, hnk, htk⟩ := hfinv k t hfk
  subst htk
  refine ⟨_, hscan.trans ht, hnk, ?_, hwk, ?_, ?_⟩
  · rw [hspd, hsod, hto]
    omega
  · rw [hspd, hsod, hto]
    omega
  · intro u hu hmod hwu
    have hdu : now / secondsPerDay ≤ u / secondsPerDay := Nat.div_le_div_right hu.le
    have hwu2 : u / secondsPerDay % 7 ∈ tds := hwu
    have hcku : startOfDay now + (u / 86400 - now / 86400) * secondsPerDay +
        timeOffset hour minute = u := by
      rw [hspd, hto] at hmod
      rw [hspd] at hdu
      rw [hspd, hsod, hto]
      omega
    have hwku : weekdayOf (startOfDay now + (u / 86400 - now / 86400) * secondsPerDay +
        timeOffset hour minute) ∈ tds := by
      rw [weekdayOf_scan now _ hour minute hh hm]
      have heq : (now / secondsPerDay + (u / 86400 - now / 86400)) % 7 =
          u / secondsPerDay % 7 := by
        rw [hspd]
        rw [hspd] at hdu
        omega
      rw [heq]
      exact hwu2
    have hfku : f (u / 86400 - now / 86400) = some (startOfDay now +
        (u / 86400 - now / 86400) * secondsPerDay + timeOffset hour minute) :=
      hfpos _ hwku (by rw [hcku]; exact hu)
    by_cases hku8 : u / 86400 - now / 86400 < 8
    · have hkle : k ≤ u / 86400 - now / 86400 := by
        by_contra hlt
        rw [hleast _ (by omega)] at hfku
        exact Option.noConfusion hfku
      rw [← hcku, hspd, hsod, hto]
      omega
    · rw [← hcku, hspd, hsod, hto]
      omega

/-- Claim C4: for valid `hour`/`minute`, any non-empty `repeat_days` whose
tags are all valid weekday names, and any `now`, the recurring next-trigger
computation returns an instant whose weekday is in `repeat_days` (once
normalized), at `hour:minute` local time, strictly after `now`; it is the
earliest such instant, and it lies within the 8 scanned calendar days
starting today. -/
theorem recurring_nextTrigger_correct (hour minute now : Nat) (repeatDays : List String)
    (hh : hour ≤ 23) (hm : minute ≤ 59) (hne : repeatDays ≠ [])
    (hvalid : ∀ d ∈ repeatDays, (dayMap (strLower d)).isSome) :
    ∃ t, calculateNextTrigger hour minute repeatDays now = some t ∧
      now < t ∧
      t % secondsPerDay = timeOffset hour minute ∧
      weekdayOf t ∈ targetDays repeatDays ∧
      t ≤ startOfDay now + 7 * secondsPerDay + timeOffset hour minute ∧
      ∀ u, now < u → u % secondsPerDay = timeOffset hour minute →
        weekdayOf u ∈ targetDays repeatDays → t ≤ u := by
  have htne : targetDays repeatDays ≠ [] := targetDays_ne_nil hne hvalid
  have hform : calculateNextTrigger hour minute repeatDays now =
      recurringScan hour minute now (targetDays repeatDays) := by
    unfold calculateNextTrigger
    have h1 : repeatDays.isEmpty = false := by
      cases repeatDays with
      | nil => exact absurd rfl hne
      | cons a l => rfl
    have h2 : (targetDays repeatDays).isEmpty = false := by
      cases h : targetDays repeatDays with
      | nil => exact absurd h htne
      | cons a l => rfl
    simp [h1, h2]
  rw [hform]
  exact recurringScan_correct hour minute now (targetDays repeatDays) hh hm
    (fun w hw => targetDays_le_six hw) htne

/-- Witness for C4 at a concrete input: alarm at 07:00 repeating Mon and Wed,
`now` Tuesday 09:00 (day 1 of the model week); the next trigger is
Wednesday 07:00. -/
theorem recurring_nextTrigger_correct_witness :
    ∃ t, calculateNextTrigger 7 0 ["mon", "wed"] (1 * 86400 + 9 * 3600) = some t ∧
      1 * 86400 + 9 * 3600 < t ∧
      t % secondsPerDay = timeOffset 7 0 ∧
      weekdayOf t ∈ targetDays ["mon", "wed"] ∧
      t ≤ startOfDay (1 * 86400 + 9 * 3600) + 7 * secondsPerDay + timeOffset 7 0 ∧
      ∀ u, 1 * 86400 + 9 * 3600 < u → u % secondsPerDay = timeOffset 7 0 →
        weekdayOf u ∈ targetDays ["mon", "wed"] → t ≤ u :=
  recurring_nextTrigger_correct 7 0 (1 * 86400 + 9 * 3600) ["mon", "wed"]
    (by decide) (by decide) (by decide) (by decide)

/-! ### Python dict primitives for id-keyed handle maps -/

/-- Python dict lookup `m.get(k)` on an id-keyed handle map. -/
def dictLookup (k : Nat) (m : List (Nat × Nat)) : Option Nat :=
  (m.find? (fun p => p.1 == k)).map (fun p => p.2)

/-- Key removal, as performed by `dict.pop(k, None)`. -/
def dictErase (k : Nat) (m : List (Nat × Nat)) : List (Nat × Nat) :=
  m.filter (fun p => p.1 != k)

/-- Python dict assignment `m[k] = v` (replaces any entry for `k`). -/
def dictInsert (k v : Nat) (m : List (Nat × Nat)) : List (Nat × Nat) :=
  (k, v) :: dictErase k m

theorem dictLookup_insert_self (k v : Nat) (m : List (Nat × Nat)) :
    dictLookup k (dictInsert k v m) = some v := by
  unfold dictLookup dictInsert
  simp [List.find?_cons]

theorem dictLookup_erase_self (k : Nat) (m : List (Nat × Nat)) :
    dictLookup k (dictErase k m) = none := by
  unfold dictLookup dictErase
  rw [Option.map_eq_none']
  rw [List.find?_eq_none]
  intro p hp
  rw [List.mem_filter] at hp
  simp only [bne_iff_ne] at hp
  simp [hp.2]

theorem dictLookup_erase_other {x k : Nat} (h : x ≠ k) (m : List (Nat × Nat)) :
    dictLookup x (dictErase k m) = dictLookup x m := by
  induction m with
  | nil => rfl
  | cons p t ih =>
    unfold dictLookup dictErase at *
    rw [List.filter_cons]
    by_cases hp : p.1 = k
    · have : (p.1 != k) = false := by simp [hp]
      rw [this]
      simp only [Bool.false_eq_true, if_false]
      rw [ih]
      have hpx : (p.1 == x) = false := by simp [hp, Ne.symm h]
      rw [List.find?_cons, hpx]
    · have : (p.1 != k) = true := by simp [hp]
      rw [this]
      simp only [if_true]
      rw [List.find?_cons, List.find?_cons]
      cases hpx : p.1 == x with
      | true => rfl
      | false => exact ih

theorem dictLookup_erase_none {x k : Nat} (m : List (Nat × Nat))
    (h : dictLookup x m = none) : dictLookup x (dictErase k m) = none := by
  by_cases hxk : x = k
  · subst hxk; exact dictLookup_erase_self x m
  · rw [dictLookup_erase_other hxk]; exact h

theorem dictInsert_unique_key (k v : Nat) (m : List (Nat × Nat)) :
    ((dictInsert k v m).filter (fun p => p.1 == k)).length = 1 := by
  unfold dictInsert dictErase
  rw [List.filter_cons]
  simp only [beq_self_eq_true, if_true, List.filter_filter]
  have hnil : (m.filter (fun p => (p.1 == k) && (p.1 != k))) = [] := by
    rw [List.filter_eq_nil_iff]
    intro p _
    by_cases hpk : p.1 = k <;> simp [hpk]
  rw [hnil]
  rfl

/-! ### Timer storage (`timer_storage.py`) and timer tools (`timer_tools.py`) -/

/-- Whether the second list is an initial segment of the first argument order:
`leadsWith needle hay`. -/
def leadsWith : List Char → List Char → Bool
  | [], _ => true
  | _ :: _, [] => false
  | c :: cs, d :: ds => c == d && leadsWith cs ds

/-- Python `needle in hay` on char lists. -/
def containsSub : List Char → List Char → Bool
  | [], needle => needle.isEmpty
  | c :: t, needle => leadsWith needle (c :: t) || containsSub t needle

/-- Python substring test `needle in hay` for strings. -/
def strContainsSub (hay needle : String) : Bool := containsSub hay.data needle.data

/-- One row of the `TimerStorage._timers` dict. -/
structure TimerRec where
  id : Nat
  name : String
  durationSeconds : Int
  startTime : Int
  endTime : Int
  sound : String
  active : Bool
deriving Repr, DecidableEq

/-- Combined state of `TimerStorage` (`_timers` and `_next_id`), the
`hass.data[DOMAIN]["scheduled_timers"]` handle map of `SetTimerTool`, and the
scheduler logs (`armed` callback log as `(handle, timer id)` pairs,
`cancelled` handle log, handle counter). -/
structure TimerState where
  timers : List TimerRec
  nextId : Nat
  scheduledTimers : List (Nat × Nat)
  armed : List (Nat × Nat)
  cancelled : List Nat
  nextHandle : Nat
deriving Repr, DecidableEq

/-- The freshly initialized storage (`_timers = {}`, `_next_id = 1`). -/
def emptyTimerState : TimerState :=
  { timers := [], nextId := 1, scheduledTimers := [], armed := [], cancelled := [],
    nextHandle := 0 }

/-- `TimerStorage.add_timer(name, duration_seconds, sound)` at instant `now`:
returns `(timer_id, end_time)` and the updated state. -/
def addTimer (name : String) (durationSeconds : Int) (sound : String) (now : Int)
    (ts : TimerState) : (Nat × Int) × TimerState :=
  let timerId := ts.nextId
  let endTime := now + durationSeconds
  ((timerId, endTime),
   { ts with
     nextId := ts.nextId + 1,
     timers := ts.timers ++
       [{ id := timerId, name := name, durationSeconds := durationSeconds,
          startTime := now, endTime := endTime, sound := sound, active := true }] })

/-- `TimerStorage.cancel_timer(timer_id)`: marks the record inactive whenever
the id exists (whether or not it was still active) and reports existence. -/
def cancelTimer (timerId : Nat) (ts : TimerState) : Bool × TimerState :=
  if ts.timers.any (fun t => t.id == timerId) then
    (true, { ts with timers := ts.timers.map (fun t =>
       if t.id == timerId then { t with active := false } else t) })
  else (false, ts)

/-- `TimerStorage.cancel_timer_by_name(name)`: flips `active` on every active
record whose lowercased name contains the lowercased query; returns how many. -/
def cancelTimerByName (name : String) (ts : TimerState) : Nat × TimerState :=
  ((ts.timers.filter (fun t =>
      t.active && strContainsSub (strLower t.name) (strLower name))).length,
   { ts with timers := ts.timers.map (fun t =>
      if t.active && strContainsSub (strLower t.name) (strLower name) then
        { t with active := false } else t) })

/-- `TimerStorage.cancel_all_timers()`: flips every active record, counting. -/
def cancelAllTimers (ts : TimerState) : Nat × TimerState :=
  ((ts.timers.filter (fun t => t.active)).length,
   { ts with timers := ts.timers.map (fun t =>
      if t.active then { t with active := false } else t) })

/-- `TimerStorage.complete_timer(timer_id)`: the state change is the same
record update as `cancel_timer`. -/
def completeTimer (timerId : Nat) (ts : TimerState) : Bool × TimerState :=
  cancelTimer timerId ts

/-- `TimerStorage.get_remaining_seconds(timer_id)` at instant `now`. -/
def getRemainingSeconds (timerId : Nat) (now : Int) (ts : TimerState) : Option Int :=
  match ts.timers.find? (fun t => t.id == timerId) with
  | none => none
  | some t => if t.active then some (max 0 (t.endTime - now)) else none

/-- `TimerStorage.cleanup_completed()` at instant `now`: drops records that
are inactive and whose `end_time` is before `now` minus one hour. -/
def cleanupCompleted (now : Int) (ts : TimerState) : TimerState :=
  let cutoff := now - 3600
  { ts with timers := ts.timers.filter (fun t =>
      !(!t.active && decide (t.endTime < cutoff))) }

/-- `TimerStorage.get_all_timers()`: the active records. -/
def getAllTimers (ts : TimerState) : List TimerRec :=
  ts.timers.filter (fun t => t.active)

/-- `TimerManager.trigger_timer(timer_id)` state change at instant `now`:
missing or inactive timers are a no-op; otherwise mark complete and GC. -/
def triggerTimer (timerId : Nat) (now : Int) (ts : TimerState) : TimerState :=
  match ts.timers.find? (fun t => t.id == timerId) with
  | none => ts
  | some t =>
    if t.active then cleanupCompleted now (completeTimer timerId ts).2
    else ts

/-- Result payload of `SetTimerTool.async_call`. -/
inductive SetTimerResult
  | ok (timerId : Nat) (durationSeconds endTime : Int)
  | err (msg : String)
deriving Repr, DecidableEq

/-- `SetTimerTool.async_call` followed by `SetTimerTool._schedule_timer`:
validate the total duration, create the record, arm the completion callback
and store its cancellation handle keyed by the new timer id. -/
def setTimerCall (durationMinutes durationSeconds : Int) (name sound : String)
    (now : Int) (ts : TimerState) : SetTimerResult × TimerState :=
  let totalSeconds := durationMinutes * 60 + durationSeconds
  if totalSeconds ≤ 0 then (.err "Duration must be greater than 0", ts)
  else if totalSeconds > 86400 then (.err "Timer duration cannot exceed 24 hours", ts)
  else
    let r := addTimer name totalSeconds sound now ts
    let ts2 := { r.2 with
      armed := (r.2.nextHandle, r.1.1) :: r.2.armed,
      scheduledTimers := dictInsert r.1.1 r.2.nextHandle r.2.scheduledTimers,
      nextHandle := r.2.nextHandle + 1 }
    (.ok r.1.1 totalSeconds r.1.2, ts2)

/-- Result payload of `CancelTimerTool.async_call`. -/
inductive CancelTimerResult
  | ok (cancelledCount : Nat)
  | err (msg : String)
deriving Repr, DecidableEq

/-- `CancelTimerTool.async_call(timer_id?, name?, cancel_all)`: the three
cancellation paths of the tool, in source order.  Only the cancel-all path
cancels every stored callback handle and clears the map; the by-id path pops
and cancels the one handle; the by-name path touches no handles. -/
def cancelTimerCall (timerId? : Option Nat) (name? : Option String) (cancelAll : Bool)
    (ts : TimerState) : CancelTimerResult × TimerState :=
  if cancelAll then
    let r := cancelAllTimers ts
    let ts2 := { r.2 with
      cancelled := (r.2.scheduledTimers.map (fun p => p.2)) ++ r.2.cancelled,
      scheduledTimers := [] }
    (.ok r.1, ts2)
  else
    match timerId? with
    | some timerId =>
      let r := cancelTimer timerId ts
      if r.1 then
        let ts2 :=
          match dictLookup timerId r.2.scheduledTimers with
          | some h => { r.2 with
              scheduledTimers := dictErase timerId r.2.scheduledTimers,
              cancelled := h :: r.2.cancelled }
          | none => r.2
        (.ok 1, ts2)
      else (.err "Timer not found", r.2)
    | none =>
      match name? with
      | some name =>
        if name.isEmpty then
          (.err "Please specify timer_id, name, or cancel_all to cancel timers", ts)
        else
          let r := cancelTimerByName name ts
          if r.1 > 0 then (.ok r.1, r.2)
          else (.err "No timers found matching the name", r.2)
      | none =>
        (.err "Please specify timer_id, name, or cancel_all to cancel timers", ts)

/-- The per-timer listing built by `ListTimersTool.async_call` at instant
`now`: entries `(id, name, remaining)` for active timers whose remaining time
is present and strictly positive. -/
def listTimersCall (now : Int) (ts : TimerState) : List (Nat × String × Int) :=
  (getAllTimers ts).filterMap (fun timer =>
    match getRemainingSeconds timer.id now ts with
    | some remaining =>
      if remaining > 0 then some (timer.id, timer.name, remaining) else none
    | none => none)

/-- Claim C7: a set-timer request whose total duration is non-positive or
exceeds 86400 seconds fails with a validation error and leaves the state
untouched (no record created, no callback armed); a total duration of exactly
one second succeeds, returning the fresh timer id and the end instant
`now + 1`, with the record created and a completion callback armed. -/
theorem setTimer_validation (durationMinutes durationSeconds : Int)
    (name sound : String) (now : Int) (ts : TimerState) :
    (durationMinutes * 60 + durationSeconds ≤ 0 ∨
        86400 < durationMinutes * 60 + durationSeconds →
      ∃ msg, setTimerCall durationMinutes durationSeconds name sound now ts =
        (.err msg, ts)) ∧
    (durationMinutes * 60 + durationSeconds = 1 →
      ∃ ts1, setTimerCall durationMinutes durationSeconds name sound now ts =
        (.ok ts.nextId 1 (now + 1), ts1) ∧
        ({ id := ts.nextId, name := name, durationSeconds := 1, startTime := now,
           endTime := now + 1, sound := sound, active := true } : TimerRec) ∈ ts1.timers ∧
        dictLookup ts.nextId ts1.scheduledTimers = some ts.nextHandle ∧
        (ts.nextHandle, ts.nextId) ∈ ts1.armed) := by
  constructor
  · intro h
    unfold setTimerCall
    rcases h with h | h
    · rw [if_pos h]
      exact ⟨_, rfl⟩
    · rw [if_neg (by omega), if_pos (by omega)]
      exact ⟨_, rfl⟩
  · intro h
    unfold setTimerCall addTimer
    rw [h]
    rw [if_neg (by omega), if_neg (by omega)]
    refine ⟨_, rfl, ?_, ?_, ?_⟩
    · simp
    · exact dictLookup_insert_self _ _ _
    · exact List.mem_cons_self _ _

/-- Witness for C7: `set_timer` totals of 0 and 86401 seconds fail without a
state change; a total of 1 second succeeds with end instant `now + 1`. -/
theorem setTimer_validation_witness :
    (∃ msg, setTimerCall 0 0 "zero" "default" 5 emptyTimerState =
      (.err msg, emptyTimerState)) ∧
    (∃ msg, setTimerCall 1440 1 "long" "default" 5 emptyTimerState =
      (.err msg, emptyTimerState)) ∧
    (∃ ts1, setTimerCall 0 1 "one" "default" 5 emptyTimerState =
      (.ok emptyTimerState.nextId 1 (5 + 1), ts1) ∧
      ({ id := emptyTimerState.nextId, name := "one", durationSeconds := 1,
         startTime := 5, endTime := 5 + 1, sound := "default",
         active := true } : TimerRec) ∈ ts1.timers ∧
      dictLookup emptyTimerState.nextId ts1.scheduledTimers =
        some emptyTimerState.nextHandle ∧
      (emptyTimerState.nextHandle, emptyTimerState.nextId) ∈ ts1.armed) :=
  ⟨(setTimer_validation 0 0 "zero" "default" 5 emptyTimerState).1 (Or.inl (by decide)),
   (setTimer_validation 1440 1 "long" "default" 5 emptyTimerState).1 (Or.inr (by decide)),
   (setTimer_validation 0 1 "one" "default" 5 emptyTimerState).2 (by decide)⟩

/-- Inversion of a successful remaining-seconds query: the timer is found,
active, and the value is the clamped difference to the end instant. -/
theorem getRemainingSeconds_some_inv {timerId : Nat} {now r : Int} {ts : TimerState}
    (h : getRemainingSeconds timerId now ts = some r) :
    ∃ t, ts.timers.find? (fun t2 => t2.id == timerId) = some t ∧ t.active = true ∧
      r = max 0 (t.endTime - now) := by
  unfold getRemainingSeconds at h
  cases hf : ts.timers.find? (fun t2 => t2.id == timerId) with
  | none => rw [hf] at h; exact Option.noConfusion h
  | some t =>
    rw [hf] at h
    have h2 : (if t.active = true then some (max 0 (t.endTime - now)) else none) =
        some r := h
    by_cases ha : t.active = true
    · rw [if_pos ha] at h2
      injection h2 with h2
      exact ⟨t, rfl, ha, h2.symm⟩
    · rw [if_neg ha] at h2
      exact Option.noConfusion h2

/-- Claim C10: the timer listing contains only timers that are active with a
strictly positive derived remaining time; an active timer whose end instant
has already passed (remaining clamped to 0) is omitted; and the
remaining-seconds query reports a missing or inactive timer as absent
(`none`), never `0`. -/
theorem listTimers_active_positive_only (now : Int) (ts : TimerState) :
    (∀ timerId, ts.timers.find? (fun t2 => t2.id == timerId) = none →
      getRemainingSeconds timerId now ts = none) ∧
    (∀ timerId t, ts.timers.find? (fun t2 => t2.id == timerId) = some t →
      t.active = false → getRemainingSeconds timerId now ts = none) ∧
    (∀ e ∈ listTimersCall now ts,
      ∃ t, ts.timers.find? (fun t2 => t2.id == e.1) = some t ∧
        t.active = true ∧ now < t.endTime ∧ e.2.2 = t.endTime - now) ∧
    (∀ timerId t, ts.timers.find? (fun t2 => t2.id == timerId) = some t →
      t.endTime ≤ now → ∀ e ∈ listTimersCall now ts, e.1 ≠ timerId) := by
  have h3 : ∀ e ∈ listTimersCall now ts,
      ∃ t, ts.timers.find? (fun t2 => t2.id == e.1) = some t ∧
        t.active = true ∧ now < t.endTime ∧ e.2.2 = t.endTime - now := by
    intro e he
    unfold listTimersCall at he
    rw [List.mem_filterMap] at he
    obtain ⟨timer, _, hmatch⟩ := he
    cases hr : getRemainingSeconds timer.id now ts with
    | none => rw [hr] at hmatch; exact Option.noConfusion hmatch
    | some remaining =>
      rw [hr] at hmatch
      have hm2 : (if remaining > 0 then some (timer.id, timer.name, remaining)
          else none) = some e := hmatch
      by_cases hpos : remaining > 0
      · rw [if_pos hpos] at hm2
        injection hm2 with hm2
        obtain ⟨t, hft, hact, hrv⟩ := getRemainingSeconds_some_inv hr
        subst hm2
        have hx : 0 < t.endTime - now := by
          by_contra hx
          push_neg at hx
          rw [max_eq_left hx] at hrv
          omega
        refine ⟨t, hft, hact, by omega, ?_⟩
        rw [max_eq_right (le_of_lt hx)] at hrv
        exact hrv
      · rw [if_neg hpos] at hm2
        exact Option.noConfusion hm2
  refine ⟨?_, ?_, h3, ?_⟩
  · intro timerId hf
    unfold getRemainingSeconds
    rw [hf]
  · intro timerId t hf ha
    unfold getRemainingSeconds
    rw [hf]
    simp [ha]
  · intro timerId t hf hend e he heq
    obtain ⟨t2, hft2, _, hlt2, _⟩ := h3 e he
    rw [heq] at hft2
    rw [hf] at hft2
    injection hft2 with hft2
    subst hft2
    omega

/-- A mixed state for exercising the listing: timer 1 is active but expired,
timer 2 is active with time left, timer 3 is inactive. -/
def c10State : TimerState :=
  { timers := [{ id := 1, name := "expired", durationSeconds := 60, startTime := 0,
                 endTime := 60, sound := "default", active := true },
               { id := 2, name := "live", durationSeconds := 600, startTime := 0,
                 endTime := 600, sound := "default", active := true },
               { id := 3, name := "dead", durationSeconds := 60, startTime := 0,
                 endTime := 60, sound := "default", active := false }],
    nextId := 4, scheduledTimers := [], armed := [], cancelled := [], nextHandle := 0 }

/-- Witness for C10 at instant 100: the inactive timer 3 and the unknown id
99 report `none`; the expired-but-active timer 1 is omitted from the listing. -/
theorem listTimers_active_positive_only_witness :
    getRemainingSeconds 3 100 c10State = none ∧
    getRemainingSeconds 99 100 c10State = none ∧
    (∀ e ∈ listTimersCall 100 c10State, e.1 ≠ 1) :=
  ⟨(listTimers_active_positive_only 100 c10State).2.1 3
      { id := 3, name := "dead", durationSeconds := 60, startTime := 0,
        endTime := 60, sound := "default", active := false } (by decide) (by decide),
   (listTimers_active_positive_only 100 c10State).1 99 (by decide),
   (listTimers_active_positive_only 100 c10State).2.2.2 1
      { id := 1, name := "expired", durationSeconds := 60, startTime := 0,
        endTime := 60, sound := "default", active := true } (by decide) (by decide)⟩

/-- Mapping a function that fixes every element of a list is the identity. -/
theorem listMap_fixes {α : Type} (l : List α) (f : α → α) (h : ∀ x ∈ l, f x = x) :
    l.map f = l := by
  induction l with
  | nil => rfl
  | cons a t ih =>
    rw [List.map_cons, h a (List.mem_cons_self a t),
      ih (fun x hx => h x (List.mem_cons_of_mem a hx))]

/-- Flipping `active` to false on exactly the records satisfying `p` (all of
which are active) increases the number of inactive records by the number of
records satisfying `p`. -/
theorem inactive_count_after_flip (p : TimerRec → Bool) (l : List TimerRec)
    (hp : ∀ t, p t = true → t.active = true) :
    ((l.map (fun t => if p t then { t with active := false } else t)).filter
        (fun t => !t.active)).length =
      (l.filter (fun t => !t.active)).length + (l.filter p).length := by
  induction l with
  | nil => rfl
  | cons t l ih =>
    by_cases hpt : p t = true
    · have ha := hp t hpt
      simp only [List.map_cons, List.filter_cons, hpt, if_true, ha]
      simp [ih]
      omega
    · have hpt2 : p t = false := by
        cases hx : p t with
        | true => exact absurd hx hpt
        | false => rfl
      simp only [List.map_cons, List.filter_cons, hpt2, Bool.false_eq_true, if_false]
      cases hta : t.active <;> simp [ih] <;> omega

/-- A state with one active timer named "pizza" whose completion callback
(handle 0) is armed and stored in the scheduled-timers map. -/
def c5State : TimerState :=
  { timers := [{ id := 1, name := "pizza", durationSeconds := 300, startTime := 0,
                 endTime := 300, sound := "default", active := true }],
    nextId := 2, scheduledTimers := [(1, 0)], armed := [(0, 1)], cancelled := [],
    nextHandle := 1 }

/-- Claim C5 counterexample: cancelling timer 1 by name flips it inactive and
reports one cancellation, yet its scheduled-action handle 0 stays stored in
the scheduled-timers map, stays armed, and is never cancelled. -/
theorem cancelByName_retains_armed_handle :
    (cancelTimerCall none (some "pizza") false c5State).1 = .ok 1 ∧
    ((cancelTimerCall none (some "pizza") false c5State).2.timers.find?
        (fun t => t.id == 1)).map TimerRec.active = some false ∧
    dictLookup 1 (cancelTimerCall none (some "pizza") false c5State).2.scheduledTimers =
      some 0 ∧
    (cancelTimerCall none (some "pizza") false c5State).2.cancelled = [] ∧
    (0, 1) ∈ (cancelTimerCall none (some "pizza") false c5State).2.armed := by
  decide

/-- Claim C5 amended: the cancel-all path cancels every stored handle and
clears the map, and a successful cancel-by-id pops and cancels the stored
handle for that id; but the cancel-by-name path leaves the scheduled-timers
map, the armed log and the cancelled log untouched: only the records flip
inactive, and the still-armed callbacks later fire as no-ops on the inactive
timers. -/
theorem cancelTimerCall_handle_discipline (ts : TimerState) (timerId : Nat)
    (name : String) (hname : name.isEmpty = false) :
    ((cancelTimerCall none none true ts).2.scheduledTimers = [] ∧
      ∀ p ∈ ts.scheduledTimers, p.2 ∈ (cancelTimerCall none none true ts).2.cancelled) ∧
    (∀ h, dictLookup timerId ts.scheduledTimers = some h →
      (cancelTimerCall (some timerId) none false ts).1 = .ok 1 →
      dictLookup timerId
          (cancelTimerCall (some timerId) none false ts).2.scheduledTimers = none ∧
      h ∈ (cancelTimerCall (some timerId) none false ts).2.cancelled) ∧
    ((cancelTimerCall none (some name) false ts).2.scheduledTimers =
        ts.scheduledTimers ∧
      (cancelTimerCall none (some name) false ts).2.armed = ts.armed ∧
      (cancelTimerCall none (some name) false ts).2.cancelled = ts.cancelled) := by
  refine ⟨⟨rfl, ?_⟩, ?_, ?_⟩
  · intro p hp
    exact List.mem_append_left _ (List.mem_map_of_mem (fun q => q.2) hp)
  · intro h hlk hok
    by_cases hany : ts.timers.any (fun t => t.id == timerId) = true
    · have heval : cancelTimerCall (some timerId) none false ts =
          (.ok 1, { ts with
            timers := ts.timers.map (fun t =>
              if t.id == timerId then { t with active := false } else t),
            scheduledTimers := dictErase timerId ts.scheduledTimers,
            cancelled := h :: ts.cancelled }) := by
        unfold cancelTimerCall cancelTimer
        simp only [Bool.false_eq_true, if_false, hany, if_true, hlk]
      rw [heval]
      exact ⟨dictLookup_erase_self _ _, List.mem_cons_self _ _⟩
    · have hany2 : ts.timers.any (fun t => t.id == timerId) = false := by
        cases hx : ts.timers.any (fun t => t.id == timerId) with
        | true => exact absurd hx hany
        | false => rfl
      have heval : cancelTimerCall (some timerId) none false ts =
          (.err "Timer not found", ts) := by
        unfold cancelTimerCall cancelTimer
        simp [hany2]
      rw [heval] at hok
      exact CancelTimerResult.noConfusion hok
  · have h2 : (cancelTimerCall none (some name) false ts).2 =
        (cancelTimerByName name ts).2 := by
      unfold cancelTimerCall
      by_cases hc : (cancelTimerByName name ts).1 > 0
      · simp [hname, hc]
      · simp [hname, hc]
    rw [h2]
    exact ⟨rfl, rfl, rfl⟩

/-- Witness for the amended C5 at the concrete "pizza" state. -/
theorem cancelTimerCall_handle_discipline_witness :
    ((cancelTimerCall none none true c5State).2.scheduledTimers = [] ∧
      ∀ p ∈ c5State.scheduledTimers,
        p.2 ∈ (cancelTimerCall none none true c5State).2.cancelled) ∧
    (∀ h, dictLookup 1 c5State.scheduledTimers = some h →
      (cancelTimerCall (some 1) none false c5State).1 = .ok 1 →
      dictLookup 1
          (cancelTimerCall (some 1) none false c5State).2.scheduledTimers = none ∧
      h ∈ (cancelTimerCall (some 1) none false c5State).2.cancelled) ∧
    ((cancelTimerCall none (some "pizza") false c5State).2.scheduledTimers =
        c5State.scheduledTimers ∧
      (cancelTimerCall none (some "pizza") false c5State).2.armed = c5State.armed ∧
      (cancelTimerCall none (some "pizza") false c5State).2.cancelled =
        c5State.cancelled) :=
  cancelTimerCall_handle_discipline c5State 1 "pizza" rfl

/-- A state with one timer that is already inactive (fired or cancelled). -/
def c6State : TimerState :=
  { timers := [{ id := 1, name := "tea", durationSeconds := 60, startTime := 0,
                 endTime := 60, sound := "default", active := false }],
    nextId := 2, scheduledTimers := [], armed := [], cancelled := [], nextHandle := 0 }

/-- Claim C6 counterexample: timer 1 exists but is already inactive;
cancelling it by id is a state no-op yet reports success with count 1, though
no active flag was flipped from true to false by the call. -/
theorem cancelById_inactive_counts_one :
    (cancelTimerCall (some 1) none false c6State).1 = .ok 1 ∧
    (cancelTimerCall (some 1) none false c6State).2 = c6State := by
  decide

/-- Claim C6 amended: cancelling an already-inactive timer is a state no-op
on the records, but the by-id path reports success with count 1 whenever the
id exists, flipped or not; only the by-name and cancel-all counts count
exactly the records actually flipped from active to inactive. -/
theorem cancel_count_semantics (ts : TimerState) (timerId : Nat) (name : String) :
    (ts.timers.any (fun t => t.id == timerId) = true →
      (cancelTimerCall (some timerId) none false ts).1 = .ok 1) ∧
    ((∀ t ∈ ts.timers, t.id = timerId → t.active = false) →
      (cancelTimerCall (some timerId) none false ts).2.timers = ts.timers) ∧
    (((cancelTimerByName name ts).2.timers.filter (fun t => !t.active)).length =
      (ts.timers.filter (fun t => !t.active)).length + (cancelTimerByName name ts).1) ∧
    (((cancelAllTimers ts).2.timers.filter (fun t => !t.active)).length =
      (ts.timers.filter (fun t => !t.active)).length + (cancelAllTimers ts).1) := by
  refine ⟨?_, ?_, ?_, ?_⟩
  · intro hany
    unfold cancelTimerCall cancelTimer
    simp only [hany, if_true]
    cases hdl : dictLookup timerId ts.scheduledTimers <;> simp [hdl]
  · intro hinact
    have hmapid : ts.timers.map (fun t =>
        if t.id == timerId then { t with active := false } else t) = ts.timers := by
      apply listMap_fixes
      intro x hx
      by_cases hid : x.id = timerId
      · have hact := hinact x hx hid
        cases x
        simp_all
      · simp [hid]
    by_cases hany : ts.timers.any (fun t => t.id == timerId) = true
    · cases hdl : dictLookup timerId ts.scheduledTimers with
      | none =>
        have heval : (cancelTimerCall (some timerId) none false ts).2 =
            { ts with timers := ts.timers.map (fun t =>
                if t.id == timerId then { t with active := false } else t) } := by
          unfold cancelTimerCall cancelTimer
          simp only [Bool.false_eq_true, if_false, hany, if_true, hdl]
        rw [heval]
        exact hmapid
      | some h =>
        have heval : (cancelTimerCall (some timerId) none false ts).2 =
            { ts with
              timers := ts.timers.map (fun t =>
                if t.id == timerId then { t with active := false } else t),
              scheduledTimers := dictErase timerId ts.scheduledTimers,
              cancelled := h :: ts.cancelled } := by
          unfold cancelTimerCall cancelTimer
          simp only [Bool.false_eq_true, if_false, hany, if_true, hdl]
        rw [heval]
        exact hmapid
    · have hany2 : ts.timers.any (fun t => t.id == timerId) = false := by
        cases hx : ts.timers.any (fun t => t.id == timerId) with
        | true => exact absurd hx hany
        | false => rfl
      unfold cancelTimerCall cancelTimer
      simp [hany2]
  · exact inactive_count_after_flip _ ts.timers
      (fun t ht => by
        cases hx : t.active with
        | true => rfl
        | false => rw [hx] at ht; simp at ht)
  · exact inactive_count_after_flip _ ts.timers (fun t ht => ht)

/-- Witness for the amended C6 at the inactive-timer state. -/
theorem cancel_count_semantics_witness :
    (cancelTimerCall (some 1) none false c6State).1 = .ok 1 ∧
    (cancelTimerCall (some 1) none false c6State).2.timers = c6State.timers ∧
    ((cancelTimerByName "tea" c6State).2.timers.filter (fun t => !t.active)).length =
      (c6State.timers.filter (fun t => !t.active)).length +
        (cancelTimerByName "tea" c6State).1 ∧
    ((cancelAllTimers c6State).2.timers.filter (fun t => !t.active)).length =
      (c6State.timers.filter (fun t => !t.active)).length + (cancelAllTimers c6State).1 :=
  ⟨(cancel_count_semantics c6State 1 "tea").1 (by decide),
   (cancel_count_semantics c6State 1 "tea").2.1 (by decide),
   (cancel_count_semantics c6State 1 "tea").2.2.1,
   (cancel_count_semantics c6State 1 "tea").2.2.2⟩

/-- The state after `set_timer(duration_minutes=1440, name="slow")` at
instant 0: timer 1 runs until instant 86400. -/
def c8State0 : TimerState := (setTimerCall 1440 0 "slow" "default" 0 emptyTimerState).2

/-- The state after additionally cancelling timer 1 at instant 0: the record
is inactive from instant 0 on. -/
def c8State1 : TimerState := (cancelTimerCall (some 1) none false c8State0).2

/-- Claim C8 counterexample: timer 1 was cancelled at instant 0, so at
instant 7200 it has been inactive for two hours; yet the GC sweep retains it,
because the sweep compares the record's end instant (86400, still in the
future) against `now - 3600`, not the time since deactivation. -/
theorem cleanup_retains_long_inactive_timer :
    (c8State1.timers.find? (fun t => t.id == 1)).map TimerRec.active = some false ∧
    ((cleanupCompleted 7200 c8State1).timers.find? (fun t => t.id == 1)).map
      TimerRec.active = some false := by
  decide

/-- Claim C8 amended: the sweep deletes exactly the inactive records whose
end instant lies more than one hour before `now`; active records, and
inactive records whose end instant is within the last hour or still in the
future, are retained regardless of how long they have been inactive. -/
theorem cleanupCompleted_characterization (now : Int) (ts : TimerState) (t : TimerRec)
    (hmem : t ∈ ts.timers) :
    t ∈ (cleanupCompleted now ts).timers ↔
      (t.active = true ∨ now - 3600 ≤ t.endTime) := by
  unfold cleanupCompleted
  simp only [List.mem_filter, hmem, true_and]
  cases hta : t.active with
  | true => simp
  | false => simp [not_lt]

/-- Witness for the amended C8: the early-cancelled long timer of the
counterexample state is retained at instant 7200 because its end instant is
at least `7200 - 3600`. -/
theorem cleanupCompleted_characterization_witness :
    ({ id := 1, name := "slow", durationSeconds := 86400, startTime := 0,
       endTime := 86400, sound := "default", active := false } : TimerRec) ∈
        (cleanupCompleted 7200 c8State1).timers ↔
      (({ id := 1, name := "slow", durationSeconds := 86400, startTime := 0,
          endTime := 86400, sound := "default", active := false } : TimerRec).active
          = true ∨
        (7200 : Int) - 3600 ≤
          ({ id := 1, name := "slow", durationSeconds := 86400, startTime := 0,
             endTime := 86400, sound := "default", active := false } : TimerRec).endTime) :=
  cleanupCompleted_characterization 7200 c8State1
    { id := 1, name := "slow", durationSeconds := 86400, startTime := 0,
      endTime := 86400, sound := "default", active := false } (by decide)

/-! ### Alarm manager (`alarm_manager.py`) and ringing-set tools
(`alarm_control_tools.py`) -/

/-- One alarm row as handled by `AlarmManager` (the stored `"HH:MM"` time
string is parsed into `hour`/`minute` by `_schedule_alarm`).  The snooze
callback passes a reduced dict holding only `id`, `name` and `sound`; its
missing `repeat_days` reads as falsy (modeled `[]`) and its `hour`, `minute`
and `enabled` entries are never read on that path. -/
structure AlarmRec where
  id : Nat
  name : String
  hour : Nat
  minute : Nat
  repeatDays : List String
  sound : String
  enabled : Bool
deriving Repr, DecidableEq

/-- Combined state of the alarm store (the `alarms` table), the manager's
`_scheduled_timers` and `_auto_dismiss_timers` handle maps, the
`hass.data[DOMAIN]["ringing_alarms"]` list, the armed-callback logs
(`armedFires`/`armedDismiss` as `(handle, alarm id)` pairs, `armedSnooze`
carrying the reduced alarm dict a snooze callback will re-trigger), the
cancelled-handle log, and the handle counter. -/
structure AlarmState where
  alarms : List AlarmRec
  scheduledTimers : List (Nat × Nat)
  autoDismissTimers : List (Nat × Nat)
  ringingAlarms : List Nat
  armedFires : List (Nat × Nat)
  armedDismiss : List (Nat × Nat)
  armedSnooze : List (Nat × AlarmRec)
  cancelled : List Nat
  nextHandle : Nat
deriving Repr, DecidableEq

/-- `AlarmStorage.toggle_alarm(alarm_id, enabled)`: the SQL UPDATE of the
`enabled` column for the matching row. -/
def toggleAlarm (alarmId : Nat) (enabled : Bool) (alarms : List AlarmRec) :
    List AlarmRec :=
  alarms.map (fun a => if a.id == alarmId then { a with enabled := enabled } else a)

/-- `AlarmManager._schedule_alarm(alarm)` at instant `now`: compute the next
trigger; when there is one, arm a fire callback and store its cancellation
handle keyed by the alarm id.  The dict assignment replaces any prior map
entry for that id, but the prior handle is not cancelled. -/
def scheduleAlarm (alarm : AlarmRec) (now : Nat) (s : AlarmState) : AlarmState :=
  match calculateNextTrigger alarm.hour alarm.minute alarm.repeatDays now with
  | none => s
  | some _ =>
    { s with
      armedFires := (s.nextHandle, alarm.id) :: s.armedFires,
      scheduledTimers := dictInsert alarm.id s.nextHandle s.scheduledTimers,
      nextHandle := s.nextHandle + 1 }

/-- `AlarmManager._schedule_auto_dismiss(alarm_id)`: arm the auto-dismiss
callback and store its cancellation handle keyed by the alarm id. -/
def scheduleAutoDismiss (alarmId : Nat) (s : AlarmState) : AlarmState :=
  { s with
    armedDismiss := (s.nextHandle, alarmId) :: s.armedDismiss,
    autoDismissTimers := dictInsert alarmId s.nextHandle s.autoDismissTimers,
    nextHandle := s.nextHandle + 1 }

/-- `AlarmManager._trigger_alarm(alarm)` state change at instant `now`:
append the id to the ringing list, arm auto-dismiss, then disable the alarm
in the store when the passed dict has falsy `repeat_days`, else reschedule
it for the next occurrence. -/
def triggerAlarm (alarm : AlarmRec) (now : Nat) (s : AlarmState) : AlarmState :=
  let s1 := { s with ringingAlarms := s.ringingAlarms ++ [alarm.id] }
  let s2 := scheduleAutoDismiss alarm.id s1
  if alarm.repeatDays.isEmpty then
    { s2 with alarms := toggleAlarm alarm.id false s2.alarms }
  else
    scheduleAlarm alarm now s2

/-- Cancellation of the auto-dismiss handle for one ringing alarm id, as done
by `StopAlarmTool._stop_alarm` and by the snooze loop: pop the map entry and,
when a handle was stored, call its cancel function. -/
def cancelAutoDismissFor (alarmId : Nat) (s : AlarmState) : AlarmState :=
  match dictLookup alarmId s.autoDismissTimers with
  | some h =>
    { s with
      autoDismissTimers := dictErase alarmId s.autoDismissTimers,
      cancelled := h :: s.cancelled }
  | none => s

/-- The per-ringing-id loop shared by stop and snooze. -/
def stopFold (l : List Nat) (st : AlarmState) : AlarmState :=
  l.foldl (fun st aid => cancelAutoDismissFor aid st) st

/-- Result payload of the stop/snooze tool calls. -/
inductive ControlResult
  | ok (count : Nat)
  | err (msg : String)
deriving Repr, DecidableEq

/-- `StopAlarmTool.async_call`: error when nothing rings; else cancel the
auto-dismiss handle of every ringing alarm id (counting one per processed
id) and clear the ringing list. -/
def stopAlarmCall (s : AlarmState) : ControlResult × AlarmState :=
  if s.ringingAlarms.isEmpty then (.err "No alarm is currently ringing", s)
  else
    let s1 := stopFold s.ringingAlarms s
    (.ok s.ringingAlarms.length, { s1 with ringingAlarms := [] })

/-- The reduced alarm dict built by the snooze callback in
`SnoozeAlarmTool.async_call`: only `id`, the prefixed `name` and `sound` are
passed on; `repeat_days` is absent, so a later `alarm.get("repeat_days")` is
falsy (`[]` in the model); `hour`, `minute` and `enabled` are never read on
the falsy-`repeat_days` path, so the model fills them with fixed values. -/
def snoozeReducedAlarm (a : AlarmRec) : AlarmRec :=
  { id := a.id, name := "Snoozed: " ++ a.name, sound := a.sound,
    hour := 0, minute := 0, repeatDays := [], enabled := true }

/-- `SnoozeAlarmTool.async_call` state change at instant `now`: error when
nothing rings; else cancel every ringing alarm's auto-dismiss handle, arm one
snooze callback per ringing id found in the store (carrying the reduced alarm
dict), and clear the ringing list.  Returns the snoozed count. -/
def snoozeAlarmCall (durationMinutes : Nat) (now : Nat) (s : AlarmState) :
    ControlResult × AlarmState :=
  if s.ringingAlarms.isEmpty then (.err "No alarm is currently ringing", s)
  else
    let s1 := stopFold s.ringingAlarms s
    let cs := s.ringingAlarms.foldl (fun (acc : Nat × AlarmState) aid =>
      match acc.2.alarms.find? (fun a => a.id == aid) with
      | some alarm =>
        (acc.1 + 1,
         { acc.2 with
           armedSnooze :=
             (acc.2.nextHandle, snoozeReducedAlarm alarm) :: acc.2.armedSnooze,
           nextHandle := acc.2.nextHandle + 1 })
      | none => acc) (0, s1)
    (.ok cs.1, { cs.2 with ringingAlarms := [] })

/-- Firing an armed snooze callback `h` at instant `now`: unless the handle
was cancelled, re-invoke `AlarmManager._trigger_alarm` with the reduced alarm
dict the callback captured. -/
def fireSnooze (h : Nat) (now : Nat) (s : AlarmState) : AlarmState :=
  match s.armedSnooze.find? (fun p => p.1 == h) with
  | some p =>
    if s.cancelled.contains h then s
    else triggerAlarm p.2 now
      { s with armedSnooze := s.armedSnooze.filter (fun q => q.1 != h) }
  | none => s

/-- A recurring alarm: Mondays and Wednesdays at 07:00, enabled. -/
def c1Alarm : AlarmRec :=
  { id := 1, name := "Workdays", hour := 7, minute := 0,
    repeatDays := ["mon", "wed"], sound := "default", enabled := true }

/-- Initial state: the recurring alarm is stored and enabled, nothing armed. -/
def c1Init : AlarmState :=
  { alarms := [c1Alarm], scheduledTimers := [], autoDismissTimers := [],
    ringingAlarms := [], armedFires := [], armedDismiss := [], armedSnooze := [],
    cancelled := [], nextHandle := 0 }

/-- The state after the recurring alarm fires on Monday 07:00 (instant 25200
of the model week). -/
def c1AfterFire : AlarmState := triggerAlarm c1Alarm 25200 c1Init

/-- The state after the user snoozes the ringing alarm for 10 minutes. -/
def c1AfterSnooze : AlarmState := (snoozeAlarmCall 10 25200 c1AfterFire).2

/-- The state after the armed snooze callback (handle 2) re-triggers ten
minutes later. -/
def c1AfterRetrigger : AlarmState := fireSnooze 2 25800 c1AfterSnooze

/-- Claim C1, code-bug evidence: the direct fire of the recurring alarm keeps
it enabled in the store, but the snooze callback re-triggers with the reduced
dict lacking `repeat_days`, so `_trigger_alarm` takes the one-shot branch and
disables the recurring alarm. -/
theorem snooze_retrigger_disables_recurring_alarm :
    (c1AfterFire.alarms.find? (fun a => a.id == 1)).map AlarmRec.enabled = some true ∧
    (c1AfterSnooze.armedSnooze.find? (fun p => p.1 == 2)).map
      (fun p => p.2.repeatDays) = some [] ∧
    (c1AfterRetrigger.alarms.find? (fun a => a.id == 1)).map AlarmRec.enabled =
      some false := by
  decide

/-- A one-shot alarm used to drive the scheduler twice. -/
def c2Alarm : AlarmRec :=
  { id := 1, name := "Wake", hour := 7, minute := 0, repeatDays := [],
    sound := "default", enabled := true }

/-- The empty manager state. -/
def c2State0 : AlarmState :=
  { alarms := [], scheduledTimers := [], autoDismissTimers := [], ringingAlarms := [],
    armedFires := [], armedDismiss := [], armedSnooze := [], cancelled := [],
    nextHandle := 0 }

/-- One schedule call for the alarm at instant 0. -/
def c2State1 : AlarmState := scheduleAlarm c2Alarm 0 c2State0

/-- A second schedule call for the same alarm. -/
def c2State2 : AlarmState := scheduleAlarm c2Alarm 0 c2State1

/-- Claim C2 counterexample: the second schedule call stores handle 1 in
place of handle 0, but handle 0 is never cancelled and its fire stays armed,
so two pending fires exist for alarm 1 after the second call. -/
theorem schedule_does_not_cancel_prior_handle :
    dictLookup 1 c2State1.scheduledTimers = some 0 ∧
    dictLookup 1 c2State2.scheduledTimers = some 1 ∧
    (0, 1) ∈ c2State2.armedFires ∧ (1, 1) ∈ c2State2.armedFires ∧
    c2State2.cancelled = [] := by
  decide

/-- Claim C2 amended: `schedule` stores the fresh handle keyed by the alarm
id, replacing the map entry — so the map holds at most one stored handle per
id — but it does not cancel the prior handle: the armed-fire log keeps every
earlier entry and no handle is cancelled by the call. -/
theorem scheduleAlarm_replaces_without_cancel (alarm : AlarmRec) (now : Nat)
    (s : AlarmState) (t : Nat)
    (htrig : calculateNextTrigger alarm.hour alarm.minute alarm.repeatDays now
      = some t) :
    ((scheduleAlarm alarm now s).scheduledTimers.filter
        (fun p => p.1 == alarm.id)).length = 1 ∧
    dictLookup alarm.id (scheduleAlarm alarm now s).scheduledTimers =
      some s.nextHandle ∧
    (scheduleAlarm alarm now s).armedFires =
      (s.nextHandle, alarm.id) :: s.armedFires ∧
    (scheduleAlarm alarm now s).cancelled = s.cancelled := by
  unfold scheduleAlarm
  rw [htrig]
  exact ⟨dictInsert_unique_key _ _ _, dictLookup_insert_self _ _ _, rfl, rfl⟩

/-- Witness for the amended C2 at the concrete double-scheduling state. -/
theorem scheduleAlarm_replaces_without_cancel_witness :
    ((scheduleAlarm c2Alarm 0 c2State1).scheduledTimers.filter
        (fun p => p.1 == c2Alarm.id)).length = 1 ∧
    dictLookup c2Alarm.id (scheduleAlarm c2Alarm 0 c2State1).scheduledTimers =
      some c2State1.nextHandle ∧
    (scheduleAlarm c2Alarm 0 c2State1).armedFires =
      (c2State1.nextHandle, c2Alarm.id) :: c2State1.armedFires ∧
    (scheduleAlarm c2Alarm 0 c2State1).cancelled = c2State1.cancelled :=
  scheduleAlarm_replaces_without_cancel c2Alarm 0 c2State1 25200 (by decide)

theorem stopFold_cons (a : Nat) (t : List Nat) (st : AlarmState) :
    stopFold (a :: t) st = stopFold t (cancelAutoDismissFor a st) := rfl

theorem cancelAutoDismissFor_cancelled_mono {h : Nat} (aid : Nat) (st : AlarmState)
    (hh : h ∈ st.cancelled) : h ∈ (cancelAutoDismissFor aid st).cancelled := by
  unfold cancelAutoDismissFor
  cases hdl : dictLookup aid st.autoDismissTimers with
  | some h2 => exact List.mem_cons_of_mem _ hh
  | none => exact hh

theorem stopFold_cancelled_mono (l : List Nat) :
    ∀ (st : AlarmState) (h : Nat), h ∈ st.cancelled →
      h ∈ (stopFold l st).cancelled := by
  induction l with
  | nil => intro st h hh; exact hh
  | cons a t ih =>
    intro st h hh
    rw [stopFold_cons]
    exact ih _ h (cancelAutoDismissFor_cancelled_mono a st hh)

theorem cancelAutoDismissFor_lookup_none (aid : Nat) (st : AlarmState) :
    dictLookup aid (cancelAutoDismissFor aid st).autoDismissTimers = none := by
  unfold cancelAutoDismissFor
  cases hdl : dictLookup aid st.autoDismissTimers with
  | some h => exact dictLookup_erase_self _ _
  | none => exact hdl

theorem cancelAutoDismissFor_lookup_mono {x : Nat} (aid : Nat) (st : AlarmState)
    (hx : dictLookup x st.autoDismissTimers = none) :
    dictLookup x (cancelAutoDismissFor aid st).autoDismissTimers = none := by
  unfold cancelAutoDismissFor
  cases hdl : dictLookup aid st.autoDismissTimers with
  | some h => exact dictLookup_erase_none _ hx
  | none => exact hx

theorem cancelAutoDismissFor_lookup_other {x aid : Nat} (hne : x ≠ aid)
    (st : AlarmState) :
    dictLookup x (cancelAutoDismissFor aid st).autoDismissTimers =
      dictLookup x st.autoDismissTimers := by
  unfold cancelAutoDismissFor
  cases hdl : dictLookup aid st.autoDismissTimers with
  | some h => exact dictLookup_erase_other hne _
  | none => rfl

theorem stopFold_lookup_none_mono (l : List Nat) :
    ∀ (st : AlarmState) (x : Nat), dictLookup x st.autoDismissTimers = none →
      dictLookup x (stopFold l st).autoDismissTimers = none := by
  induction l with
  | nil => intro st x hx; exact hx
  | cons a t ih =>
    intro st x hx
    rw [stopFold_cons]
    exact ih _ x (cancelAutoDismissFor_lookup_mono a st hx)

theorem stopFold_lookup_none (l : List Nat) :
    ∀ (st : AlarmState) (aid : Nat), aid ∈ l →
      dictLookup aid (stopFold l st).autoDismissTimers = none := by
  induction l with
  | nil => intro st aid h; cases h
  | cons a t ih =>
    intro st aid hmem
    rw [stopFold_cons]
    by_cases haa : aid = a
    · subst haa
      exact stopFold_lookup_none_mono t _ aid (cancelAutoDismissFor_lookup_none aid st)
    · rcases List.mem_cons.mp hmem with h1 | h1
      · exact absurd h1 haa
      · exact ih _ aid h1

theorem cancelAutoDismissFor_cancels (aid : Nat) (st : AlarmState) (h : Nat)
    (hlk : dictLookup aid st.autoDismissTimers = some h) :
    h ∈ (cancelAutoDismissFor aid st).cancelled := by
  unfold cancelAutoDismissFor
  rw [hlk]
  exact List.mem_cons_self _ _

theorem stopFold_cancels (l : List Nat) :
    ∀ (st : AlarmState) (aid : Nat) (h : Nat), aid ∈ l →
      dictLookup aid st.autoDismissTimers = some h →
      h ∈ (stopFold l st).cancelled := by
  induction l with
  | nil => intro _ _ _ hmem; cases hmem
  | cons a t ih =>
    intro st aid h hmem hlk
    rw [stopFold_cons]
    by_cases haa : aid = a
    · subst haa
      exact stopFold_cancelled_mono t _ h (cancelAutoDismissFor_cancels aid st h hlk)
    · rcases List.mem_cons.mp hmem with h1 | h1
      · exact absurd h1 haa
      · have hlk2 : dictLookup aid (cancelAutoDismissFor a st).autoDismissTimers
            = some h := by
          rw [cancelAutoDismissFor_lookup_other haa]
          exact hlk
        exact ih _ aid h h1 hlk2

/-- Claim C9: with an empty ringing set, stop reports the explicit
nothing-to-stop error (and changes nothing); with a non-empty set it cancels
the stored auto-dismiss handle of every ringing alarm id (removing the map
entries), empties the ringing list, and returns the number of alarms
stopped. -/
theorem stopAlarm_correct (s : AlarmState) :
    (s.ringingAlarms = [] →
      stopAlarmCall s = (.err "No alarm is currently ringing", s)) ∧
    (s.ringingAlarms ≠ [] →
      (stopAlarmCall s).1 = .ok s.ringingAlarms.length ∧
      (stopAlarmCall s).2.ringingAlarms = [] ∧
      (∀ aid ∈ s.ringingAlarms,
        dictLookup aid (stopAlarmCall s).2.autoDismissTimers = none) ∧
      (∀ aid ∈ s.ringingAlarms, ∀ h, dictLookup aid s.autoDismissTimers = some h →
        h ∈ (stopAlarmCall s).2.cancelled)) := by
  constructor
  · intro hempty
    unfold stopAlarmCall
    rw [hempty]
    rfl
  · intro hne
    have hnb : s.ringingAlarms.isEmpty = false := by
      cases hx : s.ringingAlarms with
      | nil => exact absurd hx hne
      | cons a t => rfl
    have heval : stopAlarmCall s =
        (.ok s.ringingAlarms.length,
         { stopFold s.ringingAlarms s with ringingAlarms := [] }) := by
      unfold stopAlarmCall
      simp only [hnb, Bool.false_eq_true, if_false]
    rw [heval]
    exact ⟨rfl, rfl,
      fun aid hmem => stopFold_lookup_none _ _ aid hmem,
      fun aid hmem h hlk => stopFold_cancels _ _ aid h hmem hlk⟩

/-- A state with one ringing alarm (id 1) whose auto-dismiss handle 5 is
stored and armed. -/
def c9State : AlarmState :=
  { alarms := [], scheduledTimers := [], autoDismissTimers := [(1, 5)],
    ringingAlarms := [1], armedFires := [], armedDismiss := [(5, 1)],
    armedSnooze := [], cancelled := [], nextHandle := 6 }

/-- Witness for C9 at the concrete one-ringing-alarm state. -/
theorem stopAlarm_correct_witness :
    (stopAlarmCall c9State).1 = .ok c9State.ringingAlarms.length ∧
    (stopAlarmCall c9State).2.ringingAlarms = [] ∧
    (∀ aid ∈ c9State.ringingAlarms,
      dictLookup aid (stopAlarmCall c9State).2.autoDismissTimers = none) ∧
    (∀ aid ∈ c9State.ringingAlarms, ∀ h,
      dictLookup aid c9State.autoDismissTimers = some h →
      h ∈ (stopAlarmCall c9State).2.cancelled) :=
  (stopAlarm_correct c9State).2 (by decide)
